import Mathlib

/-!
Verification of the upload-session coordinator of memenow-storage-cf-workers.

The development shallowly embeds the two coexisting implementations found in
the repository:

* the D1-backed handler suite (`src/handlers/upload.rs` together with the
  persistence operations of `src/database.rs` and the validation helpers of
  `src/middleware.rs`), embedded in namespace `Storage`;
* the legacy durable-object tracker (`src/durable_objects/upload_tracker.rs`),
  embedded in namespace `Tracker`.

External collaborators (the R2 multipart backend and the D1/durable-object
store) are modelled by explicit success/failure flags and opaque strings; every
handler returns its result together with the post state and a record of the
backend interaction it performed (which part number was sent, which parts were
submitted at completion), so that the interaction protocol itself is provable.
-/

namespace Storage

/-- Lifecycle states of an upload session, from `src/models.rs` (`UploadStatus`). -/
inductive UploadStatus where
  | initiated
  | inProgress
  | completed
  | cancelled
deriving Repr, DecidableEq

/-- A status is terminal when no further mutation is permitted. -/
def UploadStatus.isTerminal : UploadStatus → Bool
  | .completed => true
  | .cancelled => true
  | _ => false

/-- Application errors, from `src/errors.rs` (`AppError`); only the variants the
upload handlers can produce are embedded. -/
inductive AppError where
  | missingField (field : String)
  | validationError (message : String)
  | invalidField (field reason : String)
  | fileSizeExceeded (size max : Nat)
  | uploadNotFound (uploadId : String)
  | uploadAlreadyCompleted (uploadId : String)
  | uploadCancelled (uploadId : String)
  | invalidChunkIndex (index : Nat)
  | r2Error (message : String)
  | databaseError (message : String)
deriving Repr, DecidableEq

/-- Errors that `AppError::to_response` maps to HTTP 409 Conflict. -/
def AppError.isConflict : AppError → Bool
  | .uploadAlreadyCompleted _ => true
  | .uploadCancelled _ => true
  | _ => false

/-- `MAX_CHUNK_INDEX` from `src/constants.rs`. -/
def MAX_CHUNK_INDEX : Nat := 10000

/-- `DEFAULT_MAX_FILE_SIZE` from `src/constants.rs` (10 GiB). -/
def DEFAULT_MAX_FILE_SIZE : Nat := 10737418240

/-- A stored chunk row, from `src/database.rs` (`UploadChunkRecord`). -/
structure UploadChunkRecord where
  chunk_index : Nat
  chunk_size : Nat
  etag : Option String
deriving Repr, DecidableEq

/-- Session metadata, from `src/models.rs` (`UploadMetadata`); the fields that
never influence control flow (file name, user id, role, content type, creation
time) are kept for shape but not consulted by the handlers. -/
structure UploadMetadata where
  upload_id : String
  file_name : String
  total_size : Nat
  created_at : Nat
  updated_at : Nat
  content_type : String
  status : UploadStatus
  r2_key : String
  user_id : String
  r2_upload_id : String
deriving Repr, DecidableEq

/-- The persisted state of one session in the D1 store: the `uploads` row and
the `upload_chunks` rows keyed by this session's upload id. -/
structure SessionState where
  meta : UploadMetadata
  chunks : List UploadChunkRecord
deriving Repr, DecidableEq

/-- `DatabaseService::record_chunk` (`src/database.rs`): an INSERT with
`ON CONFLICT(upload_id, chunk_index) DO UPDATE` — an upsert on the unique key
`(upload_id, chunk_index)`: the row for the index, when present, is replaced
with the new size and etag; otherwise a fresh row is inserted. -/
def record_chunk : List UploadChunkRecord → Nat → Nat → Option String → List UploadChunkRecord
  | [], idx, size, etag => [{ chunk_index := idx, chunk_size := size, etag := etag }]
  | c :: rest, idx, size, etag =>
    if c.chunk_index = idx then
      { chunk_index := idx, chunk_size := size, etag := etag } :: rest
    else
      c :: record_chunk rest idx size etag

/-- Ordering of chunk rows by chunk index, the `ORDER BY chunk_index ASC` of
`DatabaseService::fetch_chunks`. -/
def chunkLe (a b : UploadChunkRecord) : Prop :=
  a.chunk_index ≤ b.chunk_index

instance : DecidableRel chunkLe := fun a b => Nat.decLe a.chunk_index b.chunk_index

instance : IsTotal UploadChunkRecord chunkLe :=
  ⟨fun a b => Nat.le_total a.chunk_index b.chunk_index⟩

instance : IsTrans UploadChunkRecord chunkLe :=
  ⟨fun _ _ _ h h2 => Nat.le_trans h h2⟩

/-- `DatabaseService::fetch_chunks` (`src/database.rs`): returns the stored
chunk rows ordered by `chunk_index` ascending. -/
def fetch_chunks (rows : List UploadChunkRecord) : List UploadChunkRecord :=
  List.insertionSort chunkLe rows

/-- The first stored row with the given chunk index, as a SELECT keyed by
`(upload_id, chunk_index)` would return it. -/
def findChunk (rows : List UploadChunkRecord) (idx : Nat) : Option UploadChunkRecord :=
  rows.find? (fun c => c.chunk_index == idx)

/-- An ordered part handed to the R2 finalize call, from
`src/handlers/upload.rs` (`PartDescriptor`). -/
structure PartDescriptor where
  part_number : Nat
  etag : String
deriving Repr, DecidableEq

/-- `collect_part_descriptors` (`src/handlers/upload.rs`): maps each chunk row
to `(chunk_index + 1, etag)`, failing with a validation error on the first row
whose etag is missing. -/
def collect_part_descriptors : List UploadChunkRecord → Except AppError (List PartDescriptor)
  | [] => .ok []
  | c :: rest =>
    match c.etag with
    | none => .error (.validationError "Missing ETag for chunk")
    | some tag =>
      match collect_part_descriptors rest with
      | .error e => .error e
      | .ok tail => .ok ({ part_number := c.chunk_index + 1, etag := tag } :: tail)

/-- `ValidationMiddleware::validate_file_size` (`src/middleware.rs`): rejects
only when the size strictly exceeds the configured maximum. -/
def validate_file_size (size max_size : Nat) : Except AppError Unit :=
  if size > max_size then .error (.fileSizeExceeded size max_size) else .ok ()

/-- Byte-wise prefix test over the character lists of two strings; the
embedding of Rust `str::starts_with` used by the content-type whitelist. -/
def charsStartWith : List Char → List Char → Bool
  | _, [] => true
  | [], _ :: _ => false
  | a :: as, b :: bs => a == b && charsStartWith as bs

/-- String-level wrapper of `charsStartWith`: does `s` start with `pat`? -/
def strStartsWith (s pat : String) : Bool :=
  charsStartWith s.data pat.data

/-- `ALLOWED_TYPES` from `ValidationMiddleware::validate_content_type`. -/
def ALLOWED_TYPES : List String :=
  ["image/", "video/", "audio/", "text/", "application/json",
   "application/pdf", "application/zip"]

/-- `ValidationMiddleware::validate_content_type` (`src/middleware.rs`):
accepts exactly the content types starting with one of the allowed type
strings. -/
def validate_content_type (content_type : String) : Except AppError Unit :=
  if ALLOWED_TYPES.any (fun allowed => strStartsWith content_type allowed) then
    .ok ()
  else
    .error (.invalidField "contentType" "Unsupported file type")

instance {ε α : Type} [DecidableEq ε] [DecidableEq α] : DecidableEq (Except ε α) :=
  fun x y =>
    match x, y with
    | .ok a, .ok b =>
      if h : a = b then isTrue (by rw [h]) else isFalse (fun hh => by cases hh; exact h rfl)
    | .error a, .error b =>
      if h : a = b then isTrue (by rw [h]) else isFalse (fun hh => by cases hh; exact h rfl)
    | .ok _, .error _ => isFalse (fun hh => by cases hh)
    | .error _, .ok _ => isFalse (fun hh => by cases hh)

/-- Outcome of `initialize_upload` (`src/handlers/upload.rs`) together with a
record of which external calls were reached: `backendCalled` is true when the
R2 `create_multipart_upload` call was issued, `storeCalled` when the D1
`create_upload` insert was issued. -/
structure InitTrace where
  result : Except AppError Unit
  backendCalled : Bool
  storeCalled : Bool
deriving Repr, DecidableEq

/-- `initialize_upload` (`src/handlers/upload.rs`), reduced to its decision
structure: validate the declared size, then the content type, and only then
open the backend multipart transfer and persist the fresh session. `backendOk`
is the oracle for the R2 `create_multipart_upload` call. -/
def init_upload (total_size : Nat) (content_type : String) (max_file_size : Nat)
    (backendOk : Bool) : InitTrace :=
  match validate_file_size total_size max_file_size with
  | .error e => { result := .error e, backendCalled := false, storeCalled := false }
  | .ok _ =>
    match validate_content_type content_type with
    | .error e => { result := .error e, backendCalled := false, storeCalled := false }
    | .ok _ =>
      if backendOk then
        { result := .ok (), backendCalled := true, storeCalled := true }
      else
        { result := .error (.r2Error "Failed to initialize multipart upload"),
          backendCalled := true, storeCalled := false }

/-- Successful response body of `upload_chunk`: chunk index, etag, status. -/
structure ChunkResponse where
  chunk_index : Nat
  etag : String
  status : UploadStatus
deriving Repr, DecidableEq

/-- Outcome of `upload_chunk`: the handler result, the post state of the
session (unchanged on error), and the part number passed to the backend
`upload_part` call, when that call was issued. -/
structure ChunkStep where
  result : Except AppError ChunkResponse
  state : Option SessionState
  sentPart : Option Nat
deriving Repr, DecidableEq

/-- `upload_chunk` (`src/handlers/upload.rs`): bound-check the index, reject an
empty body, load the session, reject terminal sessions with a conflict, upload
the body as backend part `chunk_index + 1`, upsert the chunk row, and advance
`Initiated` to `InProgress` (otherwise only touch `updated_at`). `backendOk` is
the oracle for the R2 part upload, `backendEtag` the tag it returns. -/
def upload_chunk (st : Option SessionState) (upload_id : String) (chunk_index : Nat)
    (body_len : Nat) (backendOk : Bool) (backendEtag : String) (now : Nat) : ChunkStep :=
  if chunk_index > MAX_CHUNK_INDEX then
    { result := .error (.invalidChunkIndex chunk_index), state := st, sentPart := none }
  else if body_len = 0 then
    { result := .error (.validationError "Chunk body is empty"), state := st, sentPart := none }
  else
    match st with
    | none =>
      { result := .error (.uploadNotFound upload_id), state := st, sentPart := none }
    | some s =>
      if s.meta.status = .completed then
        { result := .error (.uploadAlreadyCompleted upload_id), state := st, sentPart := none }
      else if s.meta.status = .cancelled then
        { result := .error (.uploadCancelled upload_id), state := st, sentPart := none }
      else if backendOk then
        { result := .ok { chunk_index := chunk_index, etag := backendEtag,
                          status := .inProgress },
          state := some
            { meta :=
              { s.meta with
                status := if s.meta.status = .initiated then .inProgress else s.meta.status,
                updated_at := now },
              chunks := record_chunk s.chunks chunk_index body_len (some backendEtag) },
          sentPart := some (chunk_index + 1) }
      else
        { result := .error (.r2Error "Failed to upload chunk to R2"), state := st,
          sentPart := some (chunk_index + 1) }

/-- Outcome of `complete_upload`: the handler result (the status it reports on
success), the post state, and the ordered part list passed to the backend
finalize call, when that call was issued. -/
structure CompleteStep where
  result : Except AppError UploadStatus
  state : Option SessionState
  sentParts : Option (List PartDescriptor)
deriving Repr, DecidableEq

/-- `complete_upload` (`src/handlers/upload.rs`): load the session, reject
terminal sessions with a conflict, reject an empty chunk set, build the
ordered part list from the chunk rows fetched in ascending index order, invoke
the backend finalize call, and only on its success mark the session
`Completed`. `backendOk` is the oracle for the R2 `complete` call. -/
def complete_upload (st : Option SessionState) (upload_id : String)
    (backendOk : Bool) (now : Nat) : CompleteStep :=
  match st with
  | none =>
    { result := .error (.uploadNotFound upload_id), state := st, sentParts := none }
  | some s =>
    if s.meta.status = .completed then
      { result := .error (.uploadAlreadyCompleted upload_id), state := st, sentParts := none }
    else if s.meta.status = .cancelled then
      { result := .error (.uploadCancelled upload_id), state := st, sentParts := none }
    else
      let rows := fetch_chunks s.chunks
      if rows.isEmpty then
        { result := .error (.validationError "No uploaded chunks to finalize"),
          state := st, sentParts := none }
      else
        match collect_part_descriptors rows with
        | .error e => { result := .error e, state := st, sentParts := none }
        | .ok descriptors =>
          if backendOk then
            { result := .ok .completed,
              state := some
                { meta := { s.meta with status := .completed, updated_at := now },
                  chunks := s.chunks },
              sentParts := some descriptors }
          else
            { result := .error (.r2Error "Failed to finalize multipart upload"),
              state := st, sentParts := some descriptors }

/-- Outcome of `cancel_upload`: the handler result (the status it reports on
success) and the post state. -/
structure CancelStep where
  result : Except AppError UploadStatus
  state : Option SessionState
deriving Repr, DecidableEq

/-- `cancel_upload` (`src/handlers/upload.rs`): load the session, reject a
completed session with `UploadAlreadyCompleted` and an already-cancelled one
with `UploadCancelled`, invoke the backend abort call and propagate its
failure (the `?` on `multipart.abort()`), and only on its success mark the
session `Cancelled`. `backendOk` is the oracle for the R2 abort call. -/
def cancel_upload (st : Option SessionState) (upload_id : String)
    (backendOk : Bool) (now : Nat) : CancelStep :=
  match st with
  | none => { result := .error (.uploadNotFound upload_id), state := st }
  | some s =>
    if s.meta.status = .completed then
      { result := .error (.uploadAlreadyCompleted upload_id), state := st }
    else if s.meta.status = .cancelled then
      { result := .error (.uploadCancelled upload_id), state := st }
    else if backendOk then
      { result := .ok .cancelled,
        state := some
          { meta := { s.meta with status := .cancelled, updated_at := now },
            chunks := s.chunks } }
    else
      { result := .error (.r2Error "Failed to abort multipart upload"), state := st }

/-- One mutating operation on an existing session, with its backend oracle and
the wall-clock instant of the call. -/
inductive Op where
  | chunk (idx len : Nat) (backendOk : Bool) (etag : String) (now : Nat)
  | complete (backendOk : Bool) (now : Nat)
  | cancel (backendOk : Bool) (now : Nat)
deriving Repr, DecidableEq

/-- One step of the D1 handler suite on an existing session: dispatches to the
embedded handler and returns its result together with the post state. -/
def step (s : SessionState) : Op → Except AppError Unit × SessionState
  | .chunk idx len bok etag now =>
    let t := upload_chunk (some s) s.meta.upload_id idx len bok etag now
    (t.result.map fun _ => (), t.state.getD s)
  | .complete bok now =>
    let t := complete_upload (some s) s.meta.upload_id bok now
    (t.result.map fun _ => (), t.state.getD s)
  | .cancel bok now =>
    let t := cancel_upload (some s) s.meta.upload_id bok now
    (t.result.map fun _ => (), t.state.getD s)

/-- Run a sequence of operations against a session, threading the state. -/
def run (s : SessionState) (ops : List Op) : SessionState :=
  ops.foldl (fun s op => (step s op).2) s

/-- A session in state `Initiated` has recorded no chunks. This holds of a
freshly created session (`init_upload` persists an empty chunk list) and is
preserved by every operation. -/
def Inv (s : SessionState) : Prop :=
  s.meta.status = .initiated → s.chunks = []

/-- The transitions of the state machine in the specification: stay in place,
`Initiated` to `InProgress`, `InProgress` to `Completed`, or non-terminal to
`Cancelled`. -/
def allowedTransition (a b : UploadStatus) : Prop :=
  a = b ∨ (a = .initiated ∧ b = .inProgress) ∨ (a = .inProgress ∧ b = .completed)
    ∨ (a.isTerminal = false ∧ b = .cancelled)

end Storage

namespace Tracker

/-- Session state persisted by the legacy durable object
(`src/durable_objects/upload_tracker.rs`): the status, the sorted list of
acknowledged 1-based chunk indices, the backend transfer id (empty until
assigned), and the update timestamp. -/
structure TrackerState where
  status : Storage.UploadStatus
  chunks : List Nat
  r2_upload_id : String
  updated_at : Nat
deriving Repr, DecidableEq

/-- Outcome of the durable-object chunk handler: the HTTP status of the
response (200 on success), the post state, and the part number passed to the
backend `upload_part` call, when that call was issued. -/
structure TrackerChunkStep where
  code : Nat
  state : Option TrackerState
  sentPart : Option Nat
deriving Repr, DecidableEq

/-- `UploadTracker::handle_upload_chunk`
(`src/durable_objects/upload_tracker.rs`): chunk indices are 1-based; index 1
opens the backend transfer, later indices resume it; the body is uploaded as
backend part number `chunk_index` itself; duplicates are rejected with 409;
on success the index is recorded, the list re-sorted, and the status set to
`InProgress`. -/
def handle_upload_chunk (st : Option TrackerState) (chunk_index : Nat)
    (body_len : Nat) (backendOk : Bool) (newUploadId : String) (now : Nat) :
    TrackerChunkStep :=
  if chunk_index = 0 ∨ chunk_index > Storage.MAX_CHUNK_INDEX then
    { code := 400, state := st, sentPart := none }
  else
    match st with
    | none => { code := 404, state := st, sentPart := none }
    | some s =>
      if s.status = .completed then { code := 409, state := st, sentPart := none }
      else if s.status = .cancelled then { code := 409, state := st, sentPart := none }
      else if s.chunks.contains chunk_index then { code := 409, state := st, sentPart := none }
      else if body_len = 0 then { code := 400, state := st, sentPart := none }
      else if chunk_index ≠ 1 ∧ s.r2_upload_id = "" then
        { code := 500, state := st, sentPart := none }
      else if backendOk then
        { code := 200,
          state := some
            { status := .inProgress,
              chunks := List.insertionSort (· ≤ ·) (s.chunks ++ [chunk_index]),
              r2_upload_id := if chunk_index = 1 then newUploadId else s.r2_upload_id,
              updated_at := now },
          sentPart := some chunk_index }
      else
        { code := 500, state := st, sentPart := some chunk_index }

/-- Result of the durable-object cancel handler. -/
inductive CancelOutcome where
  | notFound
  | errCompleted
  | okAlreadyCancelled
  | okCancelled
deriving Repr, DecidableEq

/-- `UploadTracker::handle_cancel` (`src/durable_objects/upload_tracker.rs`):
cancelling a completed session is a 409; cancelling an already-cancelled one
is a no-op success; otherwise the backend abort is attempted when a transfer
id exists, its failure is logged and swallowed, and the session is marked
`Cancelled` unconditionally. The `abortOk` oracle therefore never influences
the outcome. -/
def handle_cancel (st : Option TrackerState) (abortOk : Bool) (now : Nat) :
    CancelOutcome × Option TrackerState :=
  match st with
  | none => (.notFound, st)
  | some s =>
    match s.status with
    | .completed => (.errCompleted, st)
    | .cancelled => (.okAlreadyCancelled, st)
    | _ => (.okCancelled, some { s with status := .cancelled, updated_at := now })

/-- A concrete tracker session used by the concrete instantiations below. -/
def exTracker (st : Storage.UploadStatus) : TrackerState :=
  { status := st, chunks := [1], r2_upload_id := "rid", updated_at := 0 }

end Tracker

namespace Storage

/-- Request shape validity for one operation: a chunk submission carries an
index within `MAX_CHUNK_INDEX` and a non-empty body. These checks concern the
request itself and are performed by `upload_chunk` before the session is even
loaded. -/
def Op.wellFormed : Op → Prop
  | .chunk idx len _ _ _ => idx ≤ MAX_CHUNK_INDEX ∧ len ≠ 0
  | .complete _ _ => True
  | .cancel _ _ => True

/-- Concrete session metadata used by the concrete instantiations below. -/
def exMeta (st : UploadStatus) : UploadMetadata :=
  { upload_id := "u", file_name := "f", total_size := 10, created_at := 0, updated_at := 0,
    content_type := "image/png", status := st, r2_key := "k", user_id := "usr",
    r2_upload_id := "rid" }

/-- A concrete stored chunk row. -/
def exChunk0 : UploadChunkRecord := { chunk_index := 0, chunk_size := 5, etag := some "etag-a" }

/-- A concrete session holding one recorded chunk. -/
def exSession (st : UploadStatus) : SessionState := { meta := exMeta st, chunks := [exChunk0] }

/-- Chunk rows as stored after submitting indices 2, then 0, then 1. -/
def exRows : List UploadChunkRecord :=
  record_chunk (record_chunk (record_chunk [] 2 5 (some "e2")) 0 5 (some "e0")) 1 5 (some "e1")

/-- A concrete in-progress session holding the rows of `exRows`. -/
def exSessionRows : SessionState := { meta := exMeta .inProgress, chunks := exRows }

/-- A concrete freshly initiated session with no chunks. -/
def exFresh : SessionState := { meta := exMeta .initiated, chunks := [] }

end Storage

namespace Storage

theorem findChunk_record_chunk (rows : List UploadChunkRecord) (idx size : Nat)
    (etag : Option String) :
    findChunk (record_chunk rows idx size etag) idx
      = some { chunk_index := idx, chunk_size := size, etag := etag } := by
  induction rows with
  | nil => simp [record_chunk, findChunk, List.find?]
  | cons c rest ih =>
    by_cases h : c.chunk_index = idx
    · simp [record_chunk, h, findChunk, List.find?]
    · simpa [record_chunk, h, findChunk, List.find?] using ih

theorem record_chunk_of_fresh (rows : List UploadChunkRecord) (idx size : Nat)
    (etag : Option String) (h : ∀ c ∈ rows, c.chunk_index ≠ idx) :
    record_chunk rows idx size etag
      = rows ++ [{ chunk_index := idx, chunk_size := size, etag := etag }] := by
  induction rows with
  | nil => simp [record_chunk]
  | cons c rest ih =>
    have hc : c.chunk_index ≠ idx := h c (List.mem_cons_self c rest)
    simp [record_chunk, hc, ih (fun d hd => h d (List.mem_cons_of_mem c hd))]

theorem collect_part_descriptors_eq_map (l : List UploadChunkRecord)
    (h : ∀ c ∈ l, ∃ t, c.etag = some t) :
    collect_part_descriptors l
      = .ok (l.map fun c => { part_number := c.chunk_index + 1, etag := c.etag.getD "" }) := by
  induction l with
  | nil => rfl
  | cons c rest ih =>
    obtain ⟨t, ht⟩ := h c (List.mem_cons_self c rest)
    have ihr := ih (fun d hd => h d (List.mem_cons_of_mem c hd))
    simp [collect_part_descriptors, ht, ihr]

theorem fetch_chunks_perm (rows : List UploadChunkRecord) :
    List.Perm (fetch_chunks rows) rows :=
  List.perm_insertionSort chunkLe rows

theorem fetch_chunks_sorted (rows : List UploadChunkRecord) :
    List.Pairwise chunkLe (fetch_chunks rows) :=
  List.sorted_insertionSort chunkLe rows

theorem fetch_chunks_ne_nil (rows : List UploadChunkRecord) (h : rows ≠ []) :
    fetch_chunks rows ≠ [] := by
  intro hc
  exact h (List.Perm.eq_nil ((fetch_chunks_perm rows).symm.trans (hc ▸ List.Perm.refl _)))

/-- C8 counterexample: a zero total size is not rejected — size validation
passes at 0 and initialization proceeds, contrary to the claim that
`total_size` of 0 yields a `ValidationError`. -/
theorem zero_total_size_accepted :
    (init_upload 0 "image/png" 10737418240 true).result = .ok ()
    ∧ validate_file_size 0 10737418240 = .ok () := by
  decide

/-- C8 (amended): size validation rejects with `FileSizeExceeded`, carrying the
observed size and the configured maximum, exactly when the declared size
strictly exceeds the maximum; every size up to the maximum, including 0,
passes. The claimed rejection of a zero total size does not exist in the
code. -/
theorem file_size_validation (size maxv : Nat) (ct : String) (bk : Bool) :
    (size > maxv →
      (init_upload size ct maxv bk).result = .error (.fileSizeExceeded size maxv))
    ∧ (size ≤ maxv → validate_file_size size maxv = .ok ()) := by
  constructor
  · intro h
    simp [init_upload, validate_file_size, h]
  · intro h
    simp [validate_file_size, Nat.not_lt.mpr h]

/-- C8 witness: with the configured maximum 10737418240, a declared size of
20000000000 is rejected as `FileSizeExceeded 20000000000 10737418240`, while
500000000 passes validation. -/
theorem file_size_validation_witness :
    (init_upload 20000000000 "video/mp4" 10737418240 true).result
        = .error (.fileSizeExceeded 20000000000 10737418240)
    ∧ validate_file_size 500000000 10737418240 = .ok () :=
  ⟨(file_size_validation 20000000000 10737418240 "video/mp4" true).1 (by decide),
   (file_size_validation 500000000 10737418240 "video/mp4" true).2 (by decide)⟩

/-- C10 counterexample: a request whose content type is outside the whitelist
but whose declared size is oversized is rejected with `FileSizeExceeded`, not
with the invalid-field error, because size validation runs first. -/
theorem content_type_not_always_invalid_field :
    (init_upload 20000000000 "application/x-msdownload" 10737418240 true).result
        = .error (.fileSizeExceeded 20000000000 10737418240)
    ∧ ∀ f r, (init_upload 20000000000 "application/x-msdownload" 10737418240 true).result
        ≠ .error (.invalidField f r) := by
  have he : (init_upload 20000000000 "application/x-msdownload" 10737418240 true).result
      = .error (.fileSizeExceeded 20000000000 10737418240) := by decide
  refine ⟨he, fun f r h => ?_⟩
  rw [he] at h
  simp at h

/-- C10 (amended): for every initiation request that passes size validation and
whose declared content type starts with none of the allowed type strings, the
request is rejected with the invalid-field validation error and neither the
backend multipart call nor the store insert is reached. -/
theorem content_type_whitelist (size maxv : Nat) (ct : String) (bk : Bool)
    (hsize : size ≤ maxv)
    (hct : ALLOWED_TYPES.all (fun a => !(strStartsWith ct a)) = true) :
    (init_upload size ct maxv bk).result
        = .error (.invalidField "contentType" "Unsupported file type")
    ∧ (init_upload size ct maxv bk).backendCalled = false
    ∧ (init_upload size ct maxv bk).storeCalled = false := by
  have h1 : validate_file_size size maxv = .ok () := by
    simp [validate_file_size, Nat.not_lt.mpr hsize]
  have hany : ALLOWED_TYPES.any (fun allowed => strStartsWith ct allowed) = false := by
    simp only [List.all_eq_true, Bool.not_eq_true'] at hct
    simp only [List.any_eq_false]
    intro a ha
    simp [hct a ha]
  have h2 : validate_content_type ct
      = .error (.invalidField "contentType" "Unsupported file type") := by
    simp [validate_content_type, hany]
  simp [init_upload, h1, h2]

/-- C10 witness: a request of size 100 with content type
`application/x-msdownload` is rejected with the invalid-field error before any
backend or store call. -/
theorem content_type_whitelist_witness :
    (init_upload 100 "application/x-msdownload" 10737418240 true).result
        = .error (.invalidField "contentType" "Unsupported file type")
    ∧ (init_upload 100 "application/x-msdownload" 10737418240 true).backendCalled = false
    ∧ (init_upload 100 "application/x-msdownload" 10737418240 true).storeCalled = false :=
  content_type_whitelist 100 10737418240 "application/x-msdownload" true
    (by decide) (by decide)

end Storage

namespace Storage

theorem status_not_completed_of_not_terminal {s : UploadStatus}
    (h : s.isTerminal = false) : ¬ s = .completed := by
  intro hc
  rw [hc] at h
  simp [UploadStatus.isTerminal] at h

theorem status_not_cancelled_of_not_terminal {s : UploadStatus}
    (h : s.isTerminal = false) : ¬ s = .cancelled := by
  intro hc
  rw [hc] at h
  simp [UploadStatus.isTerminal] at h

/-- C2 counterexample: on the D1 handler path, resubmitting chunk index 0 of a
session that already recorded index 0 with etag `etag-a` is accepted (no
`ChunkAlreadyUploaded` rejection exists in `upload_chunk` or `AppError`), and
the stored record for index 0 is replaced with the new size 7 and etag
`etag-b`. -/
theorem duplicate_chunk_reject_refuted :
    findChunk (exSession .inProgress).chunks 0 = some exChunk0
    ∧ exChunk0 = { chunk_index := 0, chunk_size := 5, etag := some "etag-a" }
    ∧ (upload_chunk (some (exSession .inProgress)) "u" 0 7 true "etag-b" 1).result
        = .ok { chunk_index := 0, etag := "etag-b", status := .inProgress }
    ∧ (upload_chunk (some (exSession .inProgress)) "u" 0 7 true "etag-b" 1).state
        = some { meta := { exMeta .inProgress with updated_at := 1 },
                 chunks := [{ chunk_index := 0, chunk_size := 7, etag := some "etag-b" }] } := by
  decide

/-- C2 (amended): a second `UploadChunk` call for an index already present in
the session's chunks is not rejected: the D1 handler performs no duplicate
check, re-uploads the part, and `record_chunk`'s upsert replaces the stored
`ChunkRecord` for that index with the newly observed size and integrity tag.
(The legacy durable-object handler rejects duplicates with a 409 conflict; the
D1 path does not.) -/
theorem duplicate_chunk_upsert (s : SessionState) (uid : String) (idx len : Nat)
    (tag : String) (now : Nat)
    (hterm : s.meta.status.isTerminal = false)
    (hidx : idx ≤ MAX_CHUNK_INDEX) (hlen : len ≠ 0)
    (_hdup : ∃ c ∈ s.chunks, c.chunk_index = idx) :
    (upload_chunk (some s) uid idx len true tag now).result
        = .ok { chunk_index := idx, etag := tag, status := .inProgress }
    ∧ (upload_chunk (some s) uid idx len true tag now).state
        = some { meta := { s.meta with
                           status := if s.meta.status = .initiated then .inProgress
                                     else s.meta.status,
                           updated_at := now },
                 chunks := record_chunk s.chunks idx len (some tag) }
    ∧ findChunk (record_chunk s.chunks idx len (some tag)) idx
        = some { chunk_index := idx, chunk_size := len, etag := some tag } := by
  have h1 := status_not_completed_of_not_terminal hterm
  have h2 := status_not_cancelled_of_not_terminal hterm
  refine ⟨?_, ?_, findChunk_record_chunk s.chunks idx len (some tag)⟩
  · simp [upload_chunk, Nat.not_lt.mpr hidx, hlen, h1, h2]
  · simp [upload_chunk, Nat.not_lt.mpr hidx, hlen, h1, h2]

/-- C2 witness: the session of `duplicate_chunk_reject_refuted` satisfies the
hypotheses of `duplicate_chunk_upsert`, and the upsert conclusion holds for
it. -/
theorem duplicate_chunk_upsert_witness :
    ((exSession .inProgress).meta.status.isTerminal = false
      ∧ (0 : Nat) ≤ MAX_CHUNK_INDEX ∧ (7 : Nat) ≠ 0
      ∧ ∃ c ∈ (exSession .inProgress).chunks, c.chunk_index = 0)
    ∧ ((upload_chunk (some (exSession .inProgress)) "u" 0 7 true "etag-b" 1).result
        = .ok { chunk_index := 0, etag := "etag-b", status := .inProgress }
    ∧ (upload_chunk (some (exSession .inProgress)) "u" 0 7 true "etag-b" 1).state
        = some { meta := { (exSession .inProgress).meta with
                           status := if (exSession .inProgress).meta.status = .initiated
                                     then .inProgress
                                     else (exSession .inProgress).meta.status,
                           updated_at := 1 },
                 chunks := record_chunk (exSession .inProgress).chunks 0 7 (some "etag-b") }
    ∧ findChunk (record_chunk (exSession .inProgress).chunks 0 7 (some "etag-b")) 0
        = some { chunk_index := 0, chunk_size := 7, etag := some "etag-b" }) :=
  ⟨⟨by decide, by decide, by decide, ⟨exChunk0, by decide, by decide⟩⟩,
   duplicate_chunk_upsert (exSession .inProgress) "u" 0 7 "etag-b" 1
     (by decide) (by decide) (by decide) ⟨exChunk0, by decide, by decide⟩⟩

end Storage

namespace Storage

theorem fetch_chunks_isEmpty_false (rows : List UploadChunkRecord) (h : rows ≠ []) :
    (fetch_chunks rows).isEmpty = false := by
  have hne := fetch_chunks_ne_nil rows h
  cases hfe : fetch_chunks rows with
  | nil => exact absurd hfe hne
  | cons a l => rfl

/-- C3: for every non-terminal session with a non-empty chunk set whose rows
all carry an integrity tag — regardless of the order in which the chunks were
recorded — the part list handed to the backend at completion is exactly the
chunk rows sorted by chunk index ascending, each mapped to part number
`chunk_index + 1` paired with its integrity tag; the sorted rows are a
permutation of the stored rows and the resulting part numbers are ascending. -/
theorem completion_part_list (s : SessionState) (uid : String) (bk : Bool) (now : Nat)
    (hterm : s.meta.status.isTerminal = false)
    (hne : s.chunks ≠ [])
    (h : ∀ c ∈ s.chunks, ∃ t, c.etag = some t) :
    (complete_upload (some s) uid bk now).sentParts
        = some ((fetch_chunks s.chunks).map fun c =>
            { part_number := c.chunk_index + 1, etag := c.etag.getD "" })
    ∧ List.Perm (fetch_chunks s.chunks) s.chunks
    ∧ List.Pairwise chunkLe (fetch_chunks s.chunks)
    ∧ List.Pairwise (fun p q : PartDescriptor => p.part_number ≤ q.part_number)
        ((fetch_chunks s.chunks).map fun c =>
            { part_number := c.chunk_index + 1, etag := c.etag.getD "" }) := by
  have h1 := status_not_completed_of_not_terminal hterm
  have h2 := status_not_cancelled_of_not_terminal hterm
  have hfetch : ∀ c ∈ fetch_chunks s.chunks, ∃ t, c.etag = some t := fun c hc =>
    h c ((fetch_chunks_perm s.chunks).subset hc)
  have hcol := collect_part_descriptors_eq_map _ hfetch
  have hnee := fetch_chunks_isEmpty_false s.chunks hne
  refine ⟨?_, fetch_chunks_perm s.chunks, fetch_chunks_sorted s.chunks, ?_⟩
  · cases bk <;> simp [complete_upload, h1, h2, hnee, hcol]
  · rw [List.pairwise_map]
    exact (fetch_chunks_sorted s.chunks).imp (fun hab => Nat.succ_le_succ hab)

/-- C3 witness: submitting indices 2, then 0, then 1 yields stored rows in that
order; at completion the part list is parts 1, 2, 3 for chunks 0, 1, 2 with
their tags. -/
theorem completion_part_list_witness :
    ((exSessionRows.meta.status.isTerminal = false)
      ∧ exSessionRows.chunks ≠ []
      ∧ ∀ c ∈ exSessionRows.chunks, ∃ t, c.etag = some t)
    ∧ (complete_upload (some exSessionRows) "u" true 9).sentParts
        = some ((fetch_chunks exSessionRows.chunks).map fun c =>
            { part_number := c.chunk_index + 1, etag := c.etag.getD "" })
    ∧ (complete_upload (some exSessionRows) "u" true 9).sentParts
        = some [{ part_number := 1, etag := "e0" }, { part_number := 2, etag := "e1" },
                { part_number := 3, etag := "e2" }] := by
  have hall : ∀ c ∈ exSessionRows.chunks, ∃ t, c.etag = some t := by
    intro c hc
    have hl : exSessionRows.chunks
        = [{ chunk_index := 2, chunk_size := 5, etag := some "e2" },
           { chunk_index := 0, chunk_size := 5, etag := some "e0" },
           { chunk_index := 1, chunk_size := 5, etag := some "e1" }] := by decide
    rw [hl] at hc
    simp only [List.mem_cons, List.mem_singleton, List.not_mem_nil, or_false] at hc
    rcases hc with rfl | rfl | rfl
    · exact ⟨"e2", rfl⟩
    · exact ⟨"e0", rfl⟩
    · exact ⟨"e1", rfl⟩
  refine ⟨⟨by decide, by decide, hall⟩, ?_, by decide⟩
  exact (completion_part_list exSessionRows "u" true 9 (by decide) (by decide) hall).1

/-- C4: when the backend finalize call fails, `complete_upload` surfaces a
storage-backend error and leaves the persisted session unchanged — in
particular the status remains `InProgress` and is not marked `Completed`, so
completion can be retried. -/
theorem complete_backend_failure_keeps_state (s : SessionState) (uid : String) (now : Nat)
    (hst : s.meta.status = .inProgress)
    (hne : s.chunks ≠ [])
    (h : ∀ c ∈ s.chunks, ∃ t, c.etag = some t) :
    (complete_upload (some s) uid false now).result
        = .error (.r2Error "Failed to finalize multipart upload")
    ∧ (complete_upload (some s) uid false now).state = some s
    ∧ ((complete_upload (some s) uid false now).state.getD s).meta.status = .inProgress := by
  have hfetch : ∀ c ∈ fetch_chunks s.chunks, ∃ t, c.etag = some t := fun c hc =>
    h c ((fetch_chunks_perm s.chunks).subset hc)
  have hcol := collect_part_descriptors_eq_map _ hfetch
  have hnee := fetch_chunks_isEmpty_false s.chunks hne
  refine ⟨?_, ?_, ?_⟩ <;> simp [complete_upload, hst, hnee, hcol]

/-- C4 witness: the in-progress session holding chunks 0, 1, 2 keeps status
`InProgress` and reports a storage-backend error when the finalize call
fails. -/
theorem complete_backend_failure_keeps_state_witness :
    (exSessionRows.meta.status = .inProgress
      ∧ exSessionRows.chunks ≠ [])
    ∧ (complete_upload (some exSessionRows) "u" false 9).result
        = .error (.r2Error "Failed to finalize multipart upload")
    ∧ (complete_upload (some exSessionRows) "u" false 9).state = some exSessionRows := by
  have hall : ∀ c ∈ exSessionRows.chunks, ∃ t, c.etag = some t := by
    intro c hc
    have hl : exSessionRows.chunks
        = [{ chunk_index := 2, chunk_size := 5, etag := some "e2" },
           { chunk_index := 0, chunk_size := 5, etag := some "e0" },
           { chunk_index := 1, chunk_size := 5, etag := some "e1" }] := by decide
    rw [hl] at hc
    simp only [List.mem_cons, List.mem_singleton, List.not_mem_nil, or_false] at hc
    rcases hc with rfl | rfl | rfl
    · exact ⟨"e2", rfl⟩
    · exact ⟨"e0", rfl⟩
    · exact ⟨"e1", rfl⟩
  have hmain := complete_backend_failure_keeps_state exSessionRows "u" 9
    (by decide) (by decide) hall
  exact ⟨⟨by decide, by decide⟩, hmain.1, hmain.2.1⟩

end Storage

namespace Storage

/-- C5 counterexample: on the D1 handler path, cancelling an in-progress
session whose backend abort call fails does not set the status to `Cancelled`
and does not report success: the abort failure is propagated as a
storage-backend error and the persisted status stays `InProgress`. -/
theorem cancel_abort_failure_refuted :
    (cancel_upload (some (exSession .inProgress)) "u" false 9).result
        = .error (.r2Error "Failed to abort multipart upload")
    ∧ (cancel_upload (some (exSession .inProgress)) "u" false 9).state
        = some (exSession .inProgress)
    ∧ (exSession .inProgress).meta.status = .inProgress := by
  decide

/-- C5 (amended): the two implementations diverge. The D1 handler
`cancel_upload` propagates a backend abort failure: the call returns a
storage-backend error and the persisted state is unchanged, so the session is
not cancelled. Only the legacy durable-object handler `handle_cancel` swallows
the abort failure and still sets the local status to `Cancelled`, persists it,
and reports success. -/
theorem cancel_abort_failure_behavior (s : SessionState) (ts : Tracker.TrackerState)
    (uid : String) (now now2 : Nat)
    (hterm : s.meta.status.isTerminal = false)
    (hts : ts.status.isTerminal = false) :
    (cancel_upload (some s) uid false now).result
        = .error (.r2Error "Failed to abort multipart upload")
    ∧ (cancel_upload (some s) uid false now).state = some s
    ∧ Tracker.handle_cancel (some ts) false now2
        = (.okCancelled, some { ts with status := .cancelled, updated_at := now2 }) := by
  have h1 := status_not_completed_of_not_terminal hterm
  have h2 := status_not_cancelled_of_not_terminal hterm
  refine ⟨?_, ?_, ?_⟩
  · simp [cancel_upload, h1, h2]
  · simp [cancel_upload, h1, h2]
  · have ht1 := status_not_completed_of_not_terminal hts
    have ht2 := status_not_cancelled_of_not_terminal hts
    cases hs : ts.status with
    | completed => exact absurd hs ht1
    | cancelled => exact absurd hs ht2
    | initiated => simp [Tracker.handle_cancel, hs]
    | inProgress => simp [Tracker.handle_cancel, hs]

/-- C5 witness: instantiated on a concrete in-progress D1 session and a
concrete in-progress tracker session. -/
theorem cancel_abort_failure_behavior_witness :
    ((exSession .inProgress).meta.status.isTerminal = false
      ∧ (Tracker.exTracker .inProgress).status.isTerminal = false)
    ∧ (cancel_upload (some (exSession .inProgress)) "u" false 9).result
        = .error (.r2Error "Failed to abort multipart upload")
    ∧ (cancel_upload (some (exSession .inProgress)) "u" false 9).state
        = some (exSession .inProgress)
    ∧ Tracker.handle_cancel (some (Tracker.exTracker .inProgress)) false 9
        = (.okCancelled,
           some { Tracker.exTracker .inProgress with status := .cancelled, updated_at := 9 }) :=
  ⟨⟨by decide, by decide⟩,
   cancel_abort_failure_behavior (exSession .inProgress) (Tracker.exTracker .inProgress)
     "u" 9 9 (by decide) (by decide)⟩

/-- C6 counterexample: on the D1 handler path, cancelling an already-cancelled
session is not a no-op success: it is rejected with the `UploadCancelled`
conflict error. -/
theorem cancel_on_cancelled_noop_refuted :
    (cancel_upload (some (exSession .cancelled)) "u" true 9).result
        = .error (.uploadCancelled "u")
    ∧ ∀ r, (cancel_upload (some (exSession .cancelled)) "u" true 9).result ≠ .ok r := by
  have he : (cancel_upload (some (exSession .cancelled)) "u" true 9).result
      = .error (.uploadCancelled "u") := by decide
  refine ⟨he, fun r h => ?_⟩
  rw [he] at h
  simp at h

/-- C6 (amended): the two implementations diverge. The legacy durable-object
handler treats cancel-on-already-cancelled as a no-op success and leaves the
state unchanged; the D1 handler `cancel_upload` rejects it with the
`UploadCancelled` conflict error, also leaving the state unchanged. -/
theorem cancel_on_cancelled_behavior (s : SessionState) (ts : Tracker.TrackerState)
    (uid : String) (bk bk2 : Bool) (now now2 : Nat)
    (hs : s.meta.status = .cancelled) (hts : ts.status = .cancelled) :
    (cancel_upload (some s) uid bk now).result = .error (.uploadCancelled uid)
    ∧ (cancel_upload (some s) uid bk now).state = some s
    ∧ Tracker.handle_cancel (some ts) bk2 now2 = (.okAlreadyCancelled, some ts) := by
  refine ⟨?_, ?_, ?_⟩
  · simp [cancel_upload, hs]
  · simp [cancel_upload, hs]
  · simp [Tracker.handle_cancel, hts]

/-- C6 witness: instantiated on concrete already-cancelled sessions of both
implementations. -/
theorem cancel_on_cancelled_behavior_witness :
    ((exSession .cancelled).meta.status = .cancelled
      ∧ (Tracker.exTracker .cancelled).status = .cancelled)
    ∧ (cancel_upload (some (exSession .cancelled)) "u" true 9).result
        = .error (.uploadCancelled "u")
    ∧ (cancel_upload (some (exSession .cancelled)) "u" true 9).state
        = some (exSession .cancelled)
    ∧ Tracker.handle_cancel (some (Tracker.exTracker .cancelled)) true 9
        = (.okAlreadyCancelled, some (Tracker.exTracker .cancelled)) :=
  ⟨⟨by decide, by decide⟩,
   cancel_on_cancelled_behavior (exSession .cancelled) (Tracker.exTracker .cancelled)
     "u" true true 9 9 (by decide) (by decide)⟩

end Storage

namespace Storage

/-- C7 counterexample: the legacy durable-object chunk handler accepts chunk
index 1 on a fresh session (HTTP 200) but sends it to the backend as part
number 1, not `1 + 1`: its chunk indices are 1-based and are used as the part
number directly. -/
theorem tracker_part_number_refuted :
    (Tracker.handle_upload_chunk
        (some { status := .initiated, chunks := [], r2_upload_id := "", updated_at := 0 })
        1 4 true "rid" 3).code = 200
    ∧ (Tracker.handle_upload_chunk
        (some { status := .initiated, chunks := [], r2_upload_id := "", updated_at := 0 })
        1 4 true "rid" 3).sentPart = some 1
    ∧ some 1 ≠ some (1 + 1) := by
  decide

/-- C7 (amended): the D1 handler `upload_chunk` satisfies the claimed
contract: an accepted chunk with index i on a non-terminal session is sent to
the backend as part number `i + 1`; a fresh index is appended as a
`ChunkRecord`; `Initiated` advances to `InProgress` and `InProgress` stays;
`updated_at` is set to the call instant; and the response carries the chunk
index, the integrity tag, and the status `InProgress`. The legacy
durable-object handler instead numbers backend parts by its 1-based chunk
index itself. -/
theorem upload_chunk_success_contract (s : SessionState) (uid : String) (idx len : Nat)
    (tag : String) (now : Nat)
    (hterm : s.meta.status.isTerminal = false)
    (hidx : idx ≤ MAX_CHUNK_INDEX) (hlen : len ≠ 0)
    (hfresh : ∀ c ∈ s.chunks, c.chunk_index ≠ idx) :
    (upload_chunk (some s) uid idx len true tag now).sentPart = some (idx + 1)
    ∧ (upload_chunk (some s) uid idx len true tag now).result
        = .ok { chunk_index := idx, etag := tag, status := .inProgress }
    ∧ (upload_chunk (some s) uid idx len true tag now).state
        = some { meta := { s.meta with status := .inProgress, updated_at := now },
                 chunks := s.chunks
                   ++ [{ chunk_index := idx, chunk_size := len, etag := some tag }] } := by
  have h1 := status_not_completed_of_not_terminal hterm
  have h2 := status_not_cancelled_of_not_terminal hterm
  have happ := record_chunk_of_fresh s.chunks idx len (some tag) hfresh
  refine ⟨?_, ?_, ?_⟩
  · simp [upload_chunk, Nat.not_lt.mpr hidx, hlen, h1, h2]
  · simp [upload_chunk, Nat.not_lt.mpr hidx, hlen, h1, h2]
  · cases hs : s.meta.status with
    | completed => exact absurd hs h1
    | cancelled => exact absurd hs h2
    | initiated => simp [upload_chunk, Nat.not_lt.mpr hidx, hlen, hs, happ]
    | inProgress => simp [upload_chunk, Nat.not_lt.mpr hidx, hlen, hs, happ]

/-- C7 witness: uploading the fresh chunk 0 of length 4 on a freshly initiated
session sends backend part 1, appends the record, and moves the status from
`Initiated` to `InProgress`. -/
theorem upload_chunk_success_contract_witness :
    (exFresh.meta.status.isTerminal = false
      ∧ (0 : Nat) ≤ MAX_CHUNK_INDEX ∧ (4 : Nat) ≠ 0
      ∧ ∀ c ∈ exFresh.chunks, c.chunk_index ≠ 0)
    ∧ (upload_chunk (some exFresh) "u" 0 4 true "tag0" 7).sentPart = some (0 + 1)
    ∧ (upload_chunk (some exFresh) "u" 0 4 true "tag0" 7).result
        = .ok { chunk_index := 0, etag := "tag0", status := .inProgress }
    ∧ (upload_chunk (some exFresh) "u" 0 4 true "tag0" 7).state
        = some { meta := { exFresh.meta with status := .inProgress, updated_at := 7 },
                 chunks := exFresh.chunks
                   ++ [{ chunk_index := 0, chunk_size := 4, etag := some "tag0" }] } :=
  ⟨⟨by decide, by decide, by decide, by decide⟩,
   upload_chunk_success_contract exFresh "u" 0 4 "tag0" 7
     (by decide) (by decide) (by decide) (by decide)⟩

end Storage

namespace Storage

theorem terminal_cases {s : UploadStatus} (h : s.isTerminal = true) :
    s = .completed ∨ s = .cancelled := by
  cases s with
  | completed => exact Or.inl rfl
  | cancelled => exact Or.inr rfl
  | initiated => simp [UploadStatus.isTerminal] at h
  | inProgress => simp [UploadStatus.isTerminal] at h

theorem upload_chunk_state_terminal (st : SessionState) (uid : String) (idx len : Nat)
    (bok : Bool) (etag : String) (now : Nat)
    (h : st.meta.status = .completed ∨ st.meta.status = .cancelled) :
    (upload_chunk (some st) uid idx len bok etag now).state = some st := by
  unfold upload_chunk
  rcases h with h | h <;> split <;> (try split) <;> simp [h]

theorem complete_upload_state_terminal (st : SessionState) (uid : String)
    (bok : Bool) (now : Nat)
    (h : st.meta.status = .completed ∨ st.meta.status = .cancelled) :
    (complete_upload (some st) uid bok now).state = some st := by
  rcases h with h | h <;> simp [complete_upload, h]

theorem cancel_upload_state_terminal (st : SessionState) (uid : String)
    (bok : Bool) (now : Nat)
    (h : st.meta.status = .completed ∨ st.meta.status = .cancelled) :
    (cancel_upload (some st) uid bok now).state = some st := by
  rcases h with h | h <;> simp [cancel_upload, h]

theorem step_terminal_unchanged (s : SessionState) (op : Op)
    (h : s.meta.status.isTerminal = true) : (step s op).2 = s := by
  cases op with
  | chunk idx len bok etag now =>
    show (upload_chunk (some s) s.meta.upload_id idx len bok etag now).state.getD s = s
    rw [upload_chunk_state_terminal s s.meta.upload_id idx len bok etag now (terminal_cases h)]
    rfl
  | complete bok now =>
    show (complete_upload (some s) s.meta.upload_id bok now).state.getD s = s
    rw [complete_upload_state_terminal s s.meta.upload_id bok now (terminal_cases h)]
    rfl
  | cancel bok now =>
    show (cancel_upload (some s) s.meta.upload_id bok now).state.getD s = s
    rw [cancel_upload_state_terminal s s.meta.upload_id bok now (terminal_cases h)]
    rfl

theorem run_terminal_unchanged (s : SessionState) (ops : List Op)
    (h : s.meta.status.isTerminal = true) : run s ops = s := by
  induction ops with
  | nil => rfl
  | cons op rest ih =>
    show run (step s op).2 rest = s
    rw [step_terminal_unchanged s op h]
    exact ih

theorem step_terminal_conflict (s : SessionState) (op : Op)
    (h : s.meta.status.isTerminal = true) (hwf : op.wellFormed) :
    ∃ e, (step s op).1 = .error e ∧ e.isConflict = true := by
  cases op with
  | chunk idx len bok etag now =>
    rcases terminal_cases h with hc | hc
    · exact ⟨.uploadAlreadyCompleted s.meta.upload_id, by
        show ((upload_chunk (some s) s.meta.upload_id idx len bok etag now).result.map
          fun _ => ()) = .error _
        simp [upload_chunk, Nat.not_lt.mpr hwf.1, hwf.2, hc, Except.map], rfl⟩
    · exact ⟨.uploadCancelled s.meta.upload_id, by
        show ((upload_chunk (some s) s.meta.upload_id idx len bok etag now).result.map
          fun _ => ()) = .error _
        simp [upload_chunk, Nat.not_lt.mpr hwf.1, hwf.2, hc, Except.map], rfl⟩
  | complete bok now =>
    rcases terminal_cases h with hc | hc
    · exact ⟨.uploadAlreadyCompleted s.meta.upload_id, by
        show ((complete_upload (some s) s.meta.upload_id bok now).result.map
          fun _ => ()) = .error _
        simp [complete_upload, hc, Except.map], rfl⟩
    · exact ⟨.uploadCancelled s.meta.upload_id, by
        show ((complete_upload (some s) s.meta.upload_id bok now).result.map
          fun _ => ()) = .error _
        simp [complete_upload, hc, Except.map], rfl⟩
  | cancel bok now =>
    rcases terminal_cases h with hc | hc
    · exact ⟨.uploadAlreadyCompleted s.meta.upload_id, by
        show ((cancel_upload (some s) s.meta.upload_id bok now).result.map
          fun _ => ()) = .error _
        simp [cancel_upload, hc, Except.map], rfl⟩
    · exact ⟨.uploadCancelled s.meta.upload_id, by
        show ((cancel_upload (some s) s.meta.upload_id bok now).result.map
          fun _ => ()) = .error _
        simp [cancel_upload, hc, Except.map], rfl⟩



theorem allowedTransition_refl (a : UploadStatus) : allowedTransition a a := Or.inl rfl

theorem bool_eq_false_of_not_true {b : Bool} (h : ¬ b = true) : b = false := by
  cases b with
  | true => exact absurd rfl h
  | false => rfl

theorem step_transition (s : SessionState) (op : Op) (hInv : Inv s) :
    allowedTransition s.meta.status (step s op).2.meta.status ∧ Inv (step s op).2 := by
  by_cases hterm : s.meta.status.isTerminal = true
  · rw [step_terminal_unchanged s op hterm]
    exact ⟨allowedTransition_refl _, hInv⟩
  · have hterm2 : s.meta.status.isTerminal = false := bool_eq_false_of_not_true hterm
    have hnc := status_not_completed_of_not_terminal hterm2
    have hncl := status_not_cancelled_of_not_terminal hterm2
    cases op with
    | chunk idx len bok etag now =>
      show allowedTransition s.meta.status
          ((upload_chunk (some s) s.meta.upload_id idx len bok etag now).state.getD s).meta.status
        ∧ Inv ((upload_chunk (some s) s.meta.upload_id idx len bok etag now).state.getD s)
      simp only [upload_chunk]
      repeat' split
      · exact ⟨allowedTransition_refl _, hInv⟩
      · exact ⟨allowedTransition_refl _, hInv⟩
      · rename_i hbok hs
        refine ⟨Or.inr (Or.inl ⟨hs, rfl⟩), ?_⟩
        intro hcontra
        simp at hcontra
      · rename_i hbok hs
        exact ⟨Or.inl rfl, fun hcontra => absurd hcontra hs⟩
      · exact ⟨allowedTransition_refl _, hInv⟩
    | complete bok now =>
      show allowedTransition s.meta.status
          ((complete_upload (some s) s.meta.upload_id bok now).state.getD s).meta.status
        ∧ Inv ((complete_upload (some s) s.meta.upload_id bok now).state.getD s)
      simp only [complete_upload]
      repeat' split
      · exact ⟨allowedTransition_refl _, hInv⟩
      · exact ⟨allowedTransition_refl _, hInv⟩
      · exact ⟨allowedTransition_refl _, hInv⟩
      · rename_i hne hscrut ds hcol hbok
        refine ⟨?_, ?_⟩
        · cases hs : s.meta.status with
          | completed => exact absurd hs hnc
          | cancelled => exact absurd hs hncl
          | initiated =>
            exfalso
            have hch := hInv hs
            rw [hch] at hne
            exact hne rfl
          | inProgress => exact Or.inr (Or.inr (Or.inl ⟨rfl, rfl⟩))
        · intro hcontra
          simp at hcontra
      · exact ⟨allowedTransition_refl _, hInv⟩
    | cancel bok now =>
      show allowedTransition s.meta.status
          ((cancel_upload (some s) s.meta.upload_id bok now).state.getD s).meta.status
        ∧ Inv ((cancel_upload (some s) s.meta.upload_id bok now).state.getD s)
      simp only [cancel_upload]
      repeat' split
      · exact ⟨allowedTransition_refl _, hInv⟩
      · refine ⟨Or.inr (Or.inr (Or.inr ⟨hterm2, rfl⟩)), ?_⟩
        intro hcontra
        simp at hcontra
      · exact ⟨allowedTransition_refl _, hInv⟩

/-- C1: for every session satisfying the initiated-implies-no-chunks invariant
(true of every freshly created session and preserved by every operation), a
mutating operation (well-formed chunk upload, completion, cancellation) on a
terminal session is rejected with a conflict error, leaves the persisted state
unchanged, and no sequence of operations ever changes a terminal session;
moreover every single step moves the status only along
Initiated to InProgress to Completed, or non-terminal to Cancelled, and
preserves the invariant. -/
theorem status_machine_terminal_and_monotonic (s : SessionState) (op : Op) (ops : List Op)
    (hInv : Inv s) (hwf : op.wellFormed) :
    (s.meta.status.isTerminal = true →
      (∃ e, (step s op).1 = .error e ∧ e.isConflict = true)
      ∧ (step s op).2 = s ∧ run s ops = s)
    ∧ allowedTransition s.meta.status (step s op).2.meta.status
    ∧ Inv (step s op).2 :=
  ⟨fun hterm => ⟨step_terminal_conflict s op hterm hwf,
    step_terminal_unchanged s op hterm, run_terminal_unchanged s ops hterm⟩,
    (step_transition s op hInv).1, (step_transition s op hInv).2⟩

/-- C1 witness: a concrete completed session rejects a cancel with a conflict
error, is unchanged by it and by a subsequent chunk upload, and the step
respects the transition relation. -/
theorem status_machine_terminal_and_monotonic_witness :
    (Inv (exSession .completed) ∧ Op.wellFormed (.cancel true 5))
    ∧ ((exSession .completed).meta.status.isTerminal = true →
        (∃ e, (step (exSession .completed) (.cancel true 5)).1 = .error e
          ∧ e.isConflict = true)
        ∧ (step (exSession .completed) (.cancel true 5)).2 = exSession .completed
        ∧ run (exSession .completed) [.chunk 0 1 true "e" 5] = exSession .completed)
    ∧ allowedTransition (exSession .completed).meta.status
        (step (exSession .completed) (.cancel true 5)).2.meta.status
    ∧ Inv (step (exSession .completed) (.cancel true 5)).2 :=
  ⟨⟨fun h => absurd h (by decide), trivial⟩,
   status_machine_terminal_and_monotonic (exSession .completed) (.cancel true 5)
     [.chunk 0 1 true "e" 5] (fun h => absurd h (by decide)) trivial⟩

end Storage
